import Mathlib

/-!
Shallow embedding of the batch conversion-and-metadata pipeline of
`python-shapefile-converter/convert_shapefiles.py` (class `ShapefileConverter`
and `main`), together with theorems settling the frozen claims about it.

Modelling conventions:
* Python JSON values (the result of `json.load`) are the inductive `Json`
  below; numbers are simplified to `Int` (no claim depends on floats).
* The filesystem seen by the metadata stage is a map `String → Option Json`:
  `none` models a file whose open/`json.load` raises (I/O error or bad JSON).
* The external geopandas calls (`gpd.read_file` + `gdf.to_file`) are an oracle
  `ext : String → Bool`: `ext p = true` means the read-and-write of input `p`
  succeeds; `false` means some step of it raises, which the per-file
  `try/except` turns into a `None` return.
* A raised-and-uncaught Python exception inside a per-file block is `none` in
  `Option`-returning definitions.
* Directory listings are `Option (List String)`: `none` is a missing input
  directory (for which `pathlib.Path.glob` yields nothing without raising).
-/

/-- JSON values as produced by Python `json.load` (numbers collapsed to `Int`). -/
inductive Json where
  | null : Json
  | bool : Bool → Json
  | num : Int → Json
  | str : String → Json
  | arr : List Json → Json
  | obj : List (String × Json) → Json

/-- Python dict lookup on a parsed JSON object: first binding for the key
(parsed dicts have unique keys). `none` models the key being absent. -/
def jlookup (k : String) : List (String × Json) → Option Json
  | [] => none
  | (k2, v) :: rest => if k2 = k then some v else jlookup k rest

/-- Python truthiness of a JSON value (`if geojson_data.get('features'):`). -/
def Json.truthy : Json → Bool
  | Json.null => false
  | Json.bool b => b
  | Json.num n => decide (n ≠ 0)
  | Json.str s => decide (s ≠ "")
  | Json.arr xs => !xs.isEmpty
  | Json.obj fs => !fs.isEmpty

/-- Python `len` on a JSON value: defined on lists, strings and dicts,
raises (`none`) on numbers, booleans and `None`. -/
def pyLen : Json → Option Nat
  | Json.arr xs => some xs.length
  | Json.str s => some s.length
  | Json.obj fs => some fs.length
  | _ => none

/-- Split a character list at every occurrence of `c` (the semantics of
splitting a string on a one-character separator). -/
def splitChar (c : Char) : List Char → List (List Char)
  | [] => [[]]
  | x :: xs =>
    match splitChar c xs with
    | [] => [[x]]
    | y :: ys => if x = c then [] :: y :: ys else (x :: y) :: ys

/-- Final path component: Python `PurePath.name` for the forward-slash paths
this pipeline builds. -/
def basename (p : String) : String :=
  ((splitChar '/' p.data).getLastD []).asString

/-- Index of the last dot in a list of characters (Python `str.rfind`). -/
def lastDotIdx (cs : List Char) : Option Nat :=
  ((List.range cs.length).filter (fun i => cs.getD i ' ' = '.')).getLast?

/-- Python `PurePath.stem`: the final component without its suffix; a dot at
position 0 or at the very end does not start a suffix. -/
def stem (p : String) : String :=
  let name := basename p
  let cs := name.toList
  match lastDotIdx cs with
  | none => name
  | some i => if 0 < i ∧ i < cs.length - 1 then (cs.take i).asString else name

/-- Whether a directory entry is discovered by `input_dir.glob("*.shp")`:
fnmatch semantics, where `*` matches any (possibly empty) character sequence,
so a name matches exactly when it ends in `.shp` (dot-leading names included —
`pathlib.Path.glob` has no hidden-file special case). -/
def matchShp (n : String) : Bool :=
  ".shp".data.isSuffixOf n.data

/-- The discovery step `list(self.input_dir.glob("*.shp"))`: a missing input
directory (`none`) yields no matches without raising; otherwise the matching
entries, in listing order, as paths under the input directory. -/
def globShp (input_dir : String) (listing : Option (List String)) : List String :=
  match listing with
  | none => []
  | some names => (names.filter matchShp).map (fun n => input_dir ++ "/" ++ n)

/-- `ShapefileConverter.convert_shapefile_to_geojson`: on external success the
collection is written to `output_dir/<stem>.geojson` (or the supplied
`output_name`) and that path is returned; any exception in the `try` block is
caught and `None` (`none`) is returned. A `some` result means exactly one
output file was written, at the returned path. -/
def convert_shapefile_to_geojson (ext : String → Bool) (output_dir : String)
    (shapefile_path : String) (output_name : Option String) : Option String :=
  if ext shapefile_path then
    some (output_dir ++ "/" ++ output_name.getD (stem shapefile_path ++ ".geojson"))
  else
    none

/-- The accumulation loop of `convert_all_shapefiles`: successful per-file
results are appended to `converted_files`; `None` results are dropped. -/
def conversionLoop (ext : String → Bool) (output_dir : String)
    (shapefile_paths : List String) : List String :=
  shapefile_paths.foldl
    (fun acc p =>
      match convert_shapefile_to_geojson ext output_dir p none with
      | some r => acc ++ [r]
      | none => acc)
    []

/-- `ShapefileConverter.convert_all_shapefiles`: glob the input directory,
return `[]` when nothing is found, otherwise run the accumulation loop. -/
def convert_all_shapefiles (ext : String → Bool) (listing : Option (List String))
    (input_dir output_dir : String) : List String :=
  let shapefile_paths := globShp input_dir listing
  if shapefile_paths = [] then []
  else conversionLoop ext output_dir shapefile_paths

/-- One per-file entry of the metadata document. `sample_properties = none`
models the `"sample_properties"` key being absent from the `file_info` dict
(it is only inserted inside `if geojson_data.get('features'):`). The `type`
field is whatever JSON value `geojson_data.get('type', 'Unknown')` returns. -/
structure FileInfo where
  filename : String
  features_count : Nat
  type : Json
  sample_properties : Option (List String)

/-- The `sample_properties` step of the aggregation loop: `some s` is the
final state of the optional key, `none` models a raised exception (non-dict
first feature, non-dict `properties` value, or unindexable truthy
`features`), which skips the whole entry. -/
def sampleProps (fields : List (String × Json)) : Option (Option (List String)) :=
  match jlookup "features" fields with
  | none => some none
  | some v =>
    if v.truthy then
      match v with
      | Json.arr (first :: _) =>
        match first with
        | Json.obj ff =>
          match jlookup "properties" ff with
          | none => some (some [])
          | some (Json.obj props) => some (some (props.map Prod.fst))
          | some _ => none
        | _ => none
      | _ => none
    else some none

/-- One iteration of the aggregation loop in `create_metadata_file`:
re-read the output file (`none` if open/parse raises), then build the
`file_info` dict; any exception in the per-file `try` yields `none` and the
entry is skipped. -/
def fileEntry (fs : String → Option Json) (file_path : String) : Option FileInfo :=
  match fs file_path with
  | none => none
  | some (Json.obj fields) =>
    match pyLen ((jlookup "features" fields).getD (Json.arr [])) with
    | none => none
    | some fc =>
      match sampleProps fields with
      | none => none
      | some sample =>
        some { filename := basename file_path
             , features_count := fc
             , type := (jlookup "type" fields).getD (Json.str "Unknown")
             , sample_properties := sample }
  | some _ => none

/-- The metadata document built by `create_metadata_file`. -/
structure Metadata where
  total_files : Nat
  conversion_date : String
  files : List FileInfo

/-- `ShapefileConverter.create_metadata_file`: `total_files` is the length of
the input list, computed before the loop; the loop appends one entry per
successfully re-read output file, skipping failures. -/
def create_metadata_file (fs : String → Option Json) (converted_files : List String) :
    Metadata :=
  { total_files := converted_files.length
  , conversion_date := "2025-08-08"
  , files := converted_files.filterMap (fileEntry fs) }

/-- Serialization of one `file_info` dict, mirroring the key insertion order
of the source (the `sample_properties` key present only when it was set). -/
def FileInfo.toJson (fi : FileInfo) : Json :=
  Json.obj
    ([ ("filename", Json.str fi.filename)
     , ("features_count", Json.num (Int.ofNat fi.features_count))
     , ("type", fi.type) ]
     ++ match fi.sample_properties with
        | some ks => [("sample_properties", Json.arr (ks.map Json.str))]
        | none => [])

/-- Serialization of the metadata document, mirroring the dict structure that
`json.dump` writes to `metadata.json`. -/
def Metadata.toJson (m : Metadata) : Json :=
  Json.obj
    [ ("conversion_info", Json.obj
        [ ("total_files", Json.num (Int.ofNat m.total_files))
        , ("conversion_date", Json.str m.conversion_date)
        , ("files", Json.arr (m.files.map FileInfo.toJson)) ]) ]

/-- The fixed metadata path `self.output_dir / 'metadata.json'`. -/
def metadataPath (output_dir : String) : String :=
  output_dir ++ "/metadata.json"

/-- `main`, from the point where the converter exists: run the batch
conversion, then write `metadata.json` only under `if converted_files:`.
`fs` is the filesystem (path to parsed JSON) as `create_metadata_file` sees
it, i.e. after the external library's geojson writes; the result is the
filesystem after the metadata step. Writing with mode `w` plus `json.dump`
replaces the file content entirely. -/
def main_run (ext : String → Bool) (listing : Option (List String))
    (input_dir output_dir : String) (fs : String → Option Json) :
    String → Option Json :=
  let converted := convert_all_shapefiles ext listing input_dir output_dir
  if converted = [] then fs
  else fun p =>
    if p = metadataPath output_dir then
      some (Metadata.toJson (create_metadata_file fs converted))
    else fs p

/-- Rejoin path components with forward slashes. -/
def joinSlash : List (List Char) → List Char
  | [] => []
  | [x] => x
  | x :: y :: ys => x ++ '/' :: joinSlash (y :: ys)

/-- Parent directory of a path (Python `PurePath.parent` for relative
forward-slash paths): everything before the final component, `"."` when there
is none. -/
def parentDir (p : String) : String :=
  match (splitChar '/' p.data).dropLast with
  | [] => "."
  | parts => (joinSlash parts).asString

/-- `Path.mkdir(exist_ok=True)` over a directory-set model of the filesystem:
succeeds if the directory already exists, creates it if its parent exists, and
raises `FileNotFoundError` otherwise (no `parents=True` in the source). -/
def mkdirExistOk (dirs : List String) (path : String) : Except String (List String) :=
  if path ∈ dirs then Except.ok dirs
  else if parentDir path ∈ dirs then Except.ok (path :: dirs)
  else Except.error "FileNotFoundError"

/-- `ShapefileConverter.__init__`: stores the two paths and runs
`self.output_dir.mkdir(exist_ok=True)`; the result is the directory set after
construction, or the raised error. -/
def converterInit (dirs : List String) (input_dir output_dir : String) :
    Except String (List String) :=
  mkdirExistOk dirs output_dir

/-- Directory set carried by a successful construction (`[]` on error). -/
def dirsAfter : Except String (List String) → List String
  | Except.ok ds => ds
  | Except.error _ => []

/-- A metadata document as a previous run would have written it, naming an
output file (old.geojson) that a later run need not regenerate. -/
def staleMetadataJson : Json :=
  Metadata.toJson
    { total_files := 1
    , conversion_date := "2025-08-08"
    , files := [{ filename := "old.geojson", features_count := 5
                , type := Json.str "FeatureCollection"
                , sample_properties := some ["name"] }] }

/-! Helper lemmas shared by the claim theorems. -/

theorem conversionLoop_go (ext : String → Bool) (od : String) (paths : List String)
    (acc : List String) :
    paths.foldl
      (fun acc p =>
        match convert_shapefile_to_geojson ext od p none with
        | some r => acc ++ [r]
        | none => acc)
      acc
    = acc ++ paths.filterMap (fun p => convert_shapefile_to_geojson ext od p none) := by
  induction paths generalizing acc with
  | nil => simp
  | cons p ps ih =>
    cases h : convert_shapefile_to_geojson ext od p none <;>
      simp [List.foldl_cons, h, ih, List.filterMap_cons]

theorem conversionLoop_eq_filterMap (ext : String → Bool) (od : String)
    (paths : List String) :
    conversionLoop ext od paths
      = paths.filterMap (fun p => convert_shapefile_to_geojson ext od p none) := by
  unfold conversionLoop
  rw [conversionLoop_go]
  simp

theorem convert_all_eq_filterMap (ext : String → Bool) (listing : Option (List String))
    (idir od : String) :
    convert_all_shapefiles ext listing idir od
      = (globShp idir listing).filterMap
          (fun p => convert_shapefile_to_geojson ext od p none) := by
  unfold convert_all_shapefiles
  by_cases h : globShp idir listing = [] <;> simp [h, conversionLoop_eq_filterMap]

theorem convert_isSome (ext : String → Bool) (od p : String) (on2 : Option String) :
    (convert_shapefile_to_geojson ext od p on2).isSome = ext p := by
  unfold convert_shapefile_to_geojson
  cases h : ext p <;> simp [h]

theorem length_filterMap_count {α β : Type} (f : α → Option β) (l : List α) :
    (l.filterMap f).length = l.countP (fun a => (f a).isSome) := by
  induction l with
  | nil => rfl
  | cons a as ih =>
    cases h : f a <;> simp [List.filterMap_cons, h, List.countP_cons, ih]

theorem filterMap_congr_mem {α β : Type} (f g : α → Option β) (l : List α)
    (h : ∀ a ∈ l, f a = g a) : l.filterMap f = l.filterMap g := by
  induction l with
  | nil => rfl
  | cons a as ih =>
    rw [List.filterMap_cons, List.filterMap_cons, h a (by simp),
        ih (fun b hb => h b (by simp [hb]))]

theorem length_filterMap_eq_of_isSome {α β : Type} (f : α → Option β) (l : List α)
    (h : ∀ a ∈ l, (f a).isSome) : (l.filterMap f).length = l.length := by
  induction l with
  | nil => rfl
  | cons a as ih =>
    cases hfa : f a with
    | none => exact absurd (h a (by simp)) (by simp [hfa])
    | some b =>
      rw [List.filterMap_cons, hfa]
      simp [ih (fun b2 hb => h b2 (by simp [hb]))]

theorem fileEntry_congr (fs fs2 : String → Option Json) (p : String) (h : fs p = fs2 p) :
    fileEntry fs p = fileEntry fs2 p := by
  unfold fileEntry
  rw [h]

/-! Claim theorems. -/

/-- C1 counterexample: with discovered inputs a.shp (external conversion succeeds)
and b.shp (fails), two files are discovered (N = 1, M = 1) but
convert_all_shapefiles returns only one result, not the claimed N + M = 2:
failed conversions produce no entry at all in the returned sequence. -/
theorem claim1_cex :
    (globShp "in" (some ["a.shp", "b.shp"])).length = 2
    ∧ (convert_shapefile_to_geojson (fun p => decide (p = "in/a.shp")) "out" "in/a.shp" none).isSome
        = true
    ∧ (convert_shapefile_to_geojson (fun p => decide (p = "in/a.shp")) "out" "in/b.shp" none).isSome
        = false
    ∧ (convert_all_shapefiles (fun p => decide (p = "in/a.shp")) (some ["a.shp", "b.shp"])
        "in" "out").length = 1 := by
  refine ⟨rfl, rfl, rfl, ?_⟩
  decide

/-- C1 amended: convert_all_shapefiles returns, in discovery order, one result per
discovered input file whose conversion succeeded — N results when N conversions
succeed, with exactly one output file written per returned result; the M failed
inputs are omitted from the sequence instead of appearing as Failed entries. -/
theorem claim1_amended (ext : String → Bool) (listing : Option (List String))
    (idir od : String) :
    convert_all_shapefiles ext listing idir od
      = (globShp idir listing).filterMap
          (fun p => convert_shapefile_to_geojson ext od p none)
    ∧ (convert_all_shapefiles ext listing idir od).length
      = (globShp idir listing).countP (fun p => ext p) := by
  refine ⟨convert_all_eq_filterMap ext listing idir od, ?_⟩
  rw [convert_all_eq_filterMap, length_filterMap_count]
  have h : (fun p => (convert_shapefile_to_geojson ext od p none).isSome)
      = fun p => ext p := by
    funext p
    exact convert_isSome ext od p none
  rw [h]

/-- C2: a file whose external conversion fails is caught at the per-file boundary and
does not stop the batch: the loop's result over discovered paths containing the
failing file equals its result with that file removed, and every subsequent
successfully converting file still yields its output entry. -/
theorem claim2_thm (ext : String → Bool) (od : String) (pre post : List String)
    (p : String) (h : ext p = false) :
    conversionLoop ext od (pre ++ p :: post) = conversionLoop ext od (pre ++ post)
    ∧ ∀ q ∈ post, ext q = true →
        (od ++ "/" ++ (stem q ++ ".geojson")) ∈ conversionLoop ext od (pre ++ p :: post) := by
  have hp : convert_shapefile_to_geojson ext od p none = none := by
    unfold convert_shapefile_to_geojson
    simp [h]
  constructor
  · rw [conversionLoop_eq_filterMap, conversionLoop_eq_filterMap,
        List.filterMap_append, List.filterMap_append, List.filterMap_cons, hp]
  · intro q hq hq2
    rw [conversionLoop_eq_filterMap]
    refine List.mem_filterMap.mpr ⟨q, by simp [hq], ?_⟩
    unfold convert_shapefile_to_geojson
    simp [hq2]

/-- C2 witness: concrete instance with a failing middle file. -/
theorem claim2_witness :
    conversionLoop (fun q => !decide (q = "in/bad.shp")) "out"
        (["in/x.shp"] ++ "in/bad.shp" :: ["in/y.shp"])
      = conversionLoop (fun q => !decide (q = "in/bad.shp")) "out"
        (["in/x.shp"] ++ ["in/y.shp"]) :=
  (claim2_thm (fun q => !decide (q = "in/bad.shp")) "out" ["in/x.shp"] ["in/y.shp"]
    "in/bad.shp" (by decide)).1

/-- C7: for a missing input directory, or one whose listing contains no entry
matching the *.shp pattern, convert_all_shapefiles returns the empty sequence
(and, being a total function of the listing, raises nothing). -/
theorem claim7_thm (ext : String → Bool) (listing : Option (List String))
    (idir od : String)
    (h : ∀ names, listing = some names → ∀ n ∈ names, matchShp n = false) :
    convert_all_shapefiles ext listing idir od = [] := by
  cases listing with
  | none =>
    unfold convert_all_shapefiles globShp
    simp
  | some names =>
    have hfil : names.filter matchShp = [] :=
      List.filter_eq_nil_iff.mpr (fun n hn => by simp [h names rfl n hn])
    unfold convert_all_shapefiles globShp
    simp [hfil]

/-- C7 witness: a listing with no *.shp entries, and a missing directory. -/
theorem claim7_witness :
    convert_all_shapefiles (fun _ => true) (some ["notes.txt", "README.md"]) "in" "out" = []
    ∧ convert_all_shapefiles (fun _ => true) none "in" "out" = [] :=
  ⟨claim7_thm (fun _ => true) (some ["notes.txt", "README.md"]) "in" "out"
      (fun names hn => by injection hn with h2; subst h2; decide),
   claim7_thm (fun _ => true) none "in" "out" (fun names hn => Option.noConfusion hn)⟩

theorem fileEntry_eq_obj (fs : String → Option Json) (p : String)
    (fields : List (String × Json)) (hread : fs p = some (Json.obj fields)) :
    fileEntry fs p
      = match pyLen ((jlookup "features" fields).getD (Json.arr [])) with
        | none => none
        | some fc =>
          match sampleProps fields with
          | none => none
          | some sample =>
            some { filename := basename p
                 , features_count := fc
                 , type := (jlookup "type" fields).getD (Json.str "Unknown")
                 , sample_properties := sample } := by
  unfold fileEntry
  rw [hread]

/-- C3 counterexample: a run with one converted file whose re-read fails has
total_files = 1 while the files sequence is empty, so the claimed invariant
total_files = length files fails. -/
theorem claim3_cex :
    (create_metadata_file (fun _ => none) ["out/a.geojson"]).total_files
      ≠ (create_metadata_file (fun _ => none) ["out/a.geojson"]).files.length := by
  decide

/-- C3 amended: total_files equals the length of the converted-files input list,
computed before the aggregation loop; the files sequence never has more entries
than that, and matches it exactly when every output file re-reads successfully —
so a skipped entry leaves files strictly shorter than total_files. -/
theorem claim3_amended (fs : String → Option Json) (l : List String) :
    (create_metadata_file fs l).total_files = l.length
    ∧ (create_metadata_file fs l).files.length ≤ (create_metadata_file fs l).total_files
    ∧ ((∀ p ∈ l, (fileEntry fs p).isSome) →
        (create_metadata_file fs l).files.length = (create_metadata_file fs l).total_files) := by
  refine ⟨rfl, ?_, ?_⟩
  · unfold create_metadata_file
    rw [length_filterMap_count]
    exact List.countP_le_length _
  · intro h
    unfold create_metadata_file
    exact length_filterMap_eq_of_isSome _ _ h

/-- C3 witness: with every re-read succeeding, files and total_files agree. -/
theorem claim3_witness :
    (create_metadata_file (fun _ => some (Json.obj [])) ["out/a.geojson"]).files.length
      = (create_metadata_file (fun _ => some (Json.obj [])) ["out/a.geojson"]).total_files :=
  (claim3_amended (fun _ => some (Json.obj [])) ["out/a.geojson"]).2.2 (by decide)

/-- C5: for a re-read output file parsing to a JSON object, any recorded entry has
features_count equal to the length of the document's features array; and when the
features key is absent, the entry is still recorded without raising, with
features_count zero. -/
theorem claim5_thm (fs : String → Option Json) (p : String)
    (fields : List (String × Json)) (hread : fs p = some (Json.obj fields)) :
    (∀ feats, jlookup "features" fields = some (Json.arr feats) →
       ∀ fi, fileEntry fs p = some fi → fi.features_count = feats.length)
    ∧ (jlookup "features" fields = none →
        (fileEntry fs p).isSome = true
        ∧ ∀ fi, fileEntry fs p = some fi → fi.features_count = 0) := by
  constructor
  · intro feats hf fi hfi
    rw [fileEntry_eq_obj fs p fields hread, hf] at hfi
    cases hs : sampleProps fields with
    | none =>
      rw [hs] at hfi
      exact Option.noConfusion hfi
    | some sample =>
      rw [hs] at hfi
      injection hfi with h2
      subst h2
      rfl
  · intro hf
    have hs : sampleProps fields = some none := by
      unfold sampleProps
      rw [hf]
    rw [fileEntry_eq_obj fs p fields hread, hf, hs]
    exact ⟨rfl, fun fi hfi => by injection hfi with h2; subst h2; rfl⟩

/-- C6 counterexample: a valid output file whose features array is empty yields a
recorded entry that omits the sample_properties field entirely (the key is only
inserted when the features value is truthy), instead of carrying the claimed
empty sequence. -/
theorem claim6_cex :
    (fileEntry
        (fun _ => some (Json.obj
          [("type", Json.str "FeatureCollection"), ("features", Json.arr [])]))
        "out/empty.geojson").isSome = true
    ∧ (fileEntry
        (fun _ => some (Json.obj
          [("type", Json.str "FeatureCollection"), ("features", Json.arr [])]))
        "out/empty.geojson").bind FileInfo.sample_properties ≠ some [] := by
  exact ⟨rfl, by decide⟩

/-- C6 amended: when the features array is nonempty and its first feature is an
object, the entry carries sample_properties with the first feature's property keys
in their original order (empty when the properties key is absent); but when the
features key is absent or its array is empty, the sample_properties field is
omitted from the entry entirely rather than recorded as an empty sequence. -/
theorem claim6_amended (fs : String → Option Json) (p : String)
    (fields : List (String × Json)) (hread : fs p = some (Json.obj fields)) :
    ((jlookup "features" fields = none ∨ jlookup "features" fields = some (Json.arr [])) →
       ∀ fi, fileEntry fs p = some fi → fi.sample_properties = none)
    ∧ (∀ ff rest props,
        jlookup "features" fields = some (Json.arr (Json.obj ff :: rest)) →
        jlookup "properties" ff = some (Json.obj props) →
        ∀ fi, fileEntry fs p = some fi →
          fi.sample_properties = some (props.map Prod.fst))
    ∧ (∀ ff rest,
        jlookup "features" fields = some (Json.arr (Json.obj ff :: rest)) →
        jlookup "properties" ff = none →
        ∀ fi, fileEntry fs p = some fi → fi.sample_properties = some []) := by
  refine ⟨?_, ?_, ?_⟩
  · intro hf fi hfi
    have hs : sampleProps fields = some none := by
      cases hf with
      | inl h1 => unfold sampleProps; rw [h1]
      | inr h1 => unfold sampleProps; rw [h1]; rfl
    rw [fileEntry_eq_obj fs p fields hread, hs] at hfi
    cases hf with
    | inl h1 =>
      rw [h1] at hfi
      injection hfi with h2
      subst h2
      rfl
    | inr h1 =>
      rw [h1] at hfi
      injection hfi with h2
      subst h2
      rfl
  · intro ff rest props hf hp fi hfi
    have hs : sampleProps fields = some (some (props.map Prod.fst)) := by
      unfold sampleProps
      rw [hf]
      simp [hp, Json.truthy]
    rw [fileEntry_eq_obj fs p fields hread, hf, hs] at hfi
    injection hfi with h2
    subst h2
    rfl
  · intro ff rest hf hp fi hfi
    have hs : sampleProps fields = some (some []) := by
      unfold sampleProps
      rw [hf]
      simp [hp, Json.truthy]
    rw [fileEntry_eq_obj fs p fields hread, hf, hs] at hfi
    injection hfi with h2
    subst h2
    rfl

/-- C6 witness: a one-feature file whose first feature has two properties. -/
theorem claim6_witness :
    (fileEntry
        (fun _ => some (Json.obj
          [("features", Json.arr
            [Json.obj [("properties", Json.obj [("name", Json.null), ("id", Json.num 1)])]])]))
        "out/a.geojson").bind FileInfo.sample_properties = some ["name", "id"] := by
  have hENT : fileEntry
      (fun _ => some (Json.obj
        [("features", Json.arr
          [Json.obj [("properties", Json.obj [("name", Json.null), ("id", Json.num 1)])]])]))
      "out/a.geojson"
      = some { filename := "a.geojson", features_count := 1
             , type := Json.str "Unknown", sample_properties := some ["name", "id"] } := rfl
  have h2 := (claim6_amended
      (fun _ => some (Json.obj
        [("features", Json.arr
          [Json.obj [("properties", Json.obj [("name", Json.null), ("id", Json.num 1)])]])]))
      "out/a.geojson"
      [("features", Json.arr
        [Json.obj [("properties", Json.obj [("name", Json.null), ("id", Json.num 1)])]])]
      rfl).2.1
      [("properties", Json.obj [("name", Json.null), ("id", Json.num 1)])] []
      [("name", Json.null), ("id", Json.num 1)] rfl rfl _ hENT
  rw [hENT]
  exact h2

/-- C10: for a re-read output file that is valid JSON parsing to an object with no
top-level type key, any recorded entry's type field is the string Unknown; and
such a file (when it also lacks a features key) still produces an entry rather
than raising. -/
theorem claim10_thm (fs : String → Option Json) (p : String)
    (fields : List (String × Json)) (hread : fs p = some (Json.obj fields))
    (hty : jlookup "type" fields = none) :
    (∀ fi, fileEntry fs p = some fi → fi.type = Json.str "Unknown")
    ∧ (jlookup "features" fields = none → (fileEntry fs p).isSome = true) := by
  constructor
  · intro fi hfi
    rw [fileEntry_eq_obj fs p fields hread] at hfi
    cases hpl : pyLen ((jlookup "features" fields).getD (Json.arr [])) with
    | none =>
      rw [hpl] at hfi
      exact Option.noConfusion hfi
    | some fc =>
      rw [hpl] at hfi
      cases hs : sampleProps fields with
      | none =>
        rw [hs] at hfi
        exact Option.noConfusion hfi
      | some sample =>
        rw [hs] at hfi
        injection hfi with h2
        subst h2
        show (jlookup "type" fields).getD (Json.str "Unknown") = Json.str "Unknown"
        rw [hty]
        rfl
  · intro hf
    have hs : sampleProps fields = some none := by
      unfold sampleProps
      rw [hf]
    rw [fileEntry_eq_obj fs p fields hread, hf, hs]
    rfl

/-- C10 witness: an object document with neither type nor features keys. -/
theorem claim10_witness :
    (fileEntry (fun _ => some (Json.obj [("bbox", Json.arr [])])) "out/a.geojson").isSome
      = true :=
  (claim10_thm (fun _ => some (Json.obj [("bbox", Json.arr [])])) "out/a.geojson"
    [("bbox", Json.arr [])] rfl rfl).2 rfl

/-- C4 counterexample: with a stale metadata.json already in the output directory
and a fresh run that converts zero files, main skips the metadata step, so
metadata.json is not overwritten and still holds the previous run's entries
(here an entry for old.geojson that this run never produced). -/
theorem claim4_cex :
    convert_all_shapefiles (fun _ => false) (some ["a.shp"]) "in" "out" = []
    ∧ main_run (fun _ => false) (some ["a.shp"]) "in" "out"
        (fun q => if q = metadataPath "out" then some staleMetadataJson else none)
        (metadataPath "out")
      = some staleMetadataJson := by
  exact ⟨by decide, rfl⟩

/-- C4 amended: when at least one file converts successfully, metadata.json is
fully overwritten with exactly the document this run computed (mode-w write plus
json.dump replaces the content, so no stale entries survive); when the fresh run
converts zero files, main never writes metadata.json and a prior document is
left in place untouched. -/
theorem claim4_amended (ext : String → Bool) (listing : Option (List String))
    (idir od : String) (fs : String → Option Json)
    (h : convert_all_shapefiles ext listing idir od ≠ []) :
    main_run ext listing idir od fs (metadataPath od)
      = some (Metadata.toJson (create_metadata_file fs
          (convert_all_shapefiles ext listing idir od))) := by
  simp only [main_run]
  rw [if_neg h]
  simp

/-- C4 witness: a run converting one file writes exactly this run's document. -/
theorem claim4_witness :
    main_run (fun _ => true) (some ["a.shp"]) "in" "out" (fun _ => none)
        (metadataPath "out")
      = some (Metadata.toJson (create_metadata_file (fun _ => none)
          (convert_all_shapefiles (fun _ => true) (some ["a.shp"]) "in" "out"))) :=
  claim4_amended (fun _ => true) (some ["a.shp"]) "in" "out" (fun _ => none) (by decide)

/-- C8 counterexample: constructing the converter with an output path whose parent
directory does not exist fails with FileNotFoundError instead of creating the
missing parents — mkdir is called with exist_ok only, not parents. -/
theorem claim8_cex :
    converterInit ["."] "in" "parent/out" = Except.error "FileNotFoundError" := rfl

/-- C8 amended: construction creates the output directory when it is absent but
its parent directory exists (and succeeds trivially when it already exists);
when the parent directories are missing, construction raises instead of
creating them. -/
theorem claim8_amended (dirs : List String) (idir od : String)
    (h : od ∈ dirs ∨ parentDir od ∈ dirs) :
    (converterInit dirs idir od).isOk = true
    ∧ od ∈ dirsAfter (converterInit dirs idir od) := by
  unfold converterInit mkdirExistOk
  by_cases h1 : od ∈ dirs
  · rw [if_pos h1]
    exact ⟨rfl, h1⟩
  · have h2 : parentDir od ∈ dirs := h.resolve_left h1
    rw [if_neg h1, if_pos h2]
    exact ⟨rfl, List.mem_cons_self od dirs⟩

/-- C8 witness: creating geojson_output under an existing working directory. -/
theorem claim8_witness :
    (converterInit ["."] "input_shapefiles" "geojson_output").isOk = true
    ∧ "geojson_output" ∈ dirsAfter (converterInit ["."] "input_shapefiles" "geojson_output") :=
  claim8_amended ["."] "input_shapefiles" "geojson_output" (by decide)

/-- C9: the metadata document is a deterministic function of the output files'
contents and order — two aggregation runs over filesystems agreeing on the
listed output files produce equal documents, hence equal serialized JSON, and
the only timestamp-like field is the constant conversion date. -/
theorem claim9_thm (fs fs2 : String → Option Json) (l : List String)
    (h : ∀ p ∈ l, fs p = fs2 p) :
    create_metadata_file fs l = create_metadata_file fs2 l
    ∧ Metadata.toJson (create_metadata_file fs l)
      = Metadata.toJson (create_metadata_file fs2 l)
    ∧ (create_metadata_file fs l).conversion_date = "2025-08-08" := by
  have h1 : create_metadata_file fs l = create_metadata_file fs2 l := by
    unfold create_metadata_file
    rw [filterMap_congr_mem (fileEntry fs) (fileEntry fs2) l
        (fun p hp => fileEntry_congr fs fs2 p (h p hp))]
  exact ⟨h1, congrArg Metadata.toJson h1, rfl⟩

/-- C9 witness: two filesystems differing only away from the listed file. -/
theorem claim9_witness :
    create_metadata_file
        (fun q => if q = "out/a.geojson" then some (Json.obj []) else none)
        ["out/a.geojson"]
      = create_metadata_file
        (fun q => if q = "out/a.geojson" then some (Json.obj []) else some Json.null)
        ["out/a.geojson"] :=
  (claim9_thm
    (fun q => if q = "out/a.geojson" then some (Json.obj []) else none)
    (fun q => if q = "out/a.geojson" then some (Json.obj []) else some Json.null)
    ["out/a.geojson"]
    (by intro p hp; rw [List.mem_singleton] at hp; subst hp; rfl)).1

/-- C5 witness: a one-feature output file records features_count = 1. -/
theorem claim5_witness :
    FileInfo.features_count <$> fileEntry
        (fun _ => some (Json.obj [("features", Json.arr [Json.obj []])]))
        "out/a.geojson" = some 1 := by
  have hENT : fileEntry
      (fun _ => some (Json.obj [("features", Json.arr [Json.obj []])]))
      "out/a.geojson"
      = some { filename := "a.geojson", features_count := 1
             , type := Json.str "Unknown", sample_properties := some [] } := rfl
  have h2 := (claim5_thm
      (fun _ => some (Json.obj [("features", Json.arr [Json.obj []])]))
      "out/a.geojson"
      [("features", Json.arr [Json.obj []])] rfl).1 [Json.obj []] rfl _ hENT
  rw [hENT]
  exact congrArg some h2
